import Mathlib

/-!
Verification of the Notty card game repository.

The development shallowly embeds the parts of the program that carry game
state: the visual deck (`notty/src/visual/deck.py`), the action board
(`notty/src/visual/action_board.py`), the selector dialogs
(`notty/src/visual/base_selector.py`, `cards_selector.py`,
`player_name_selector.py`) and player setup (`notty/src/player_selection.py`).

Conventions of the embedding:
- Python lists become Lean `List`s; `list.pop()` removes the last element.
- A Python function that can raise becomes an `Except String` value.
- `random.shuffle(x)` performs the Fisher-Yates loop
  `for i in reversed(range(1, len(x))): j = randbelow(i + 1); swap x[i], x[j]`;
  the random draws are made explicit as a function `rand : Nat → Nat`, step `i`
  drawing `rand i % (i + 1)`.  Every sequence of draws the Python generator can
  produce corresponds to some `rand`, so a property proved for all `rand`
  holds for every run, and a concrete `rand` exhibits a possible run.
- Pixel geometry, pygame surfaces, fonts and animation are not modelled
  (coordinates are kept only where a predicate reads them, as in
  `ActionButton.is_clicked`).
-/

namespace Notty

/-- Card colors. Modelled from the spec: the class `Color` of
`notty/src/visual/card.py` is not among the available sources; the spec fixes
the five colors Red, Green, Yellow, Black, Blue. -/
inductive Color where
  | red
  | green
  | yellow
  | black
  | blue
  deriving DecidableEq

/-- Modelled from the spec: `Color.get_all_colors` of the missing
`notty/src/visual/card.py`, listing the five colors. -/
def Color.get_all_colors : List Color :=
  [Color.red, Color.green, Color.yellow, Color.black, Color.blue]

/-- Modelled from the spec: `Number.get_all_numbers` of the missing
`notty/src/visual/card.py`.  The spec fixes ranks 1..R with R determined by
the 90-card total: 5 colors times R ranks times 2 duplicates = 90, so R = 9. -/
def Number.get_all_numbers : List Nat :=
  [1, 2, 3, 4, 5, 6, 7, 8, 9]

/-- A visual card, identified by its color-number pair (`VisualCard` of
`notty/src/visual/card.py`; sprite position is pixel geometry, not modelled). -/
structure VisualCard where
  color : Color
  number : Nat
  deriving DecidableEq

/-- One exchange `x[i], x[j] = x[j], x[i]` on a list, as performed inside the
Fisher-Yates loop of `random.shuffle`.  Out-of-range indices leave the list
unchanged (the loop never produces them). -/
def swap_at {α : Type*} (l : List α) (i j : Nat) : List α :=
  match l[i]?, l[j]? with
  | some a, some b => (l.set i b).set j a
  | _, _ => l

/-- The Fisher-Yates loop of `random.shuffle`: for `i` from `len - 1` down to
`1`, swap `x[i]` with `x[j]` where `j = randbelow(i + 1)`; step `i` draws
`rand i % (i + 1)`. -/
def shuffleGo {α : Type*} (rand : Nat → Nat) : Nat → List α → List α
  | 0, l => l
  | i + 1, l => shuffleGo rand i (swap_at l (i + 1) (rand (i + 1) % (i + 2)))

/-- `VisualDeck.shuffle`: `random.shuffle(self.cards)` with the random draws
made explicit. -/
def shuffle {α : Type*} (rand : Nat → Nat) (l : List α) : List α :=
  shuffleGo rand (l.length - 1) l

/-- `VisualDeck.is_empty`: `len(self.cards) == 0`. -/
def is_empty (cards : List VisualCard) : Bool :=
  cards.length == 0

/-- `VisualDeck.draw_card`: raises `ValueError("Cannot draw from an empty deck")`
if `self.cards` is empty, otherwise `self.cards.pop()` removes and returns the
last card. -/
def draw_card (cards : List VisualCard) :
    Except String (VisualCard × List VisualCard) :=
  match cards.getLast? with
  | none => Except.error ("Cannot draw from an empty deck")
  | some c => Except.ok (c, cards.dropLast)

/-- `VisualDeck.draw_cards`: loop `count` times, breaking as soon as `is_empty`,
otherwise `draw_card` and collect.  Returns the drawn cards in draw order
together with the remaining deck. -/
def draw_cards (cards : List VisualCard) (count : Nat) :
    Except String (List VisualCard × List VisualCard) :=
  match count with
  | 0 => Except.ok ([], cards)
  | n + 1 =>
    if is_empty cards then Except.ok ([], cards)
    else
      match draw_card cards with
      | Except.error e => Except.error e
      | Except.ok (c, rest) =>
        match draw_cards rest n with
        | Except.error e => Except.error e
        | Except.ok (drawn, final) => Except.ok (c :: drawn, final)

/-- `VisualDeck.NUM_DUPLICATES`. -/
def NUM_DUPLICATES : Nat := 2

/-- `VisualDeck.add_card`: appends the card to `self.cards`, moves the sprite to
the deck center (pixel geometry, not modelled) and then calls `self.shuffle()`. -/
def add_card (rand : Nat → Nat) (cards : List VisualCard) (c : VisualCard) :
    List VisualCard :=
  shuffle rand (cards ++ [c])

-- Helper for `add_cards`: call index `k` selects the random draws `rands k`
-- used by the shuffle inside the `k`-th `add_card` call.
def add_cards_go (rands : Nat → Nat → Nat) (k : Nat) (cards : List VisualCard) :
    List VisualCard → List VisualCard
  | [] => cards
  | c :: cs => add_cards_go rands (k + 1) (add_card (rands k) cards c) cs

/-- `VisualDeck.add_cards`: `add_card` for each given card in order (used when
discarding cards back to the deck). -/
def add_cards (rands : Nat → Nat → Nat) (cards discarded : List VisualCard) :
    List VisualCard :=
  add_cards_go rands 0 cards discarded

/-- The order in which `VisualDeck._initialize_deck` creates cards: for each
color, for each number, `NUM_DUPLICATES` copies. -/
def deck_card_order : List VisualCard :=
  Color.get_all_colors.flatMap fun c =>
    Number.get_all_numbers.flatMap fun n =>
      List.replicate NUM_DUPLICATES { color := c, number := n }

/-- `VisualDeck._initialize_deck`: resets `self.cards` to empty and `add_card`s
every card of `deck_card_order` in order (each call re-shuffles). -/
def init_deck (rands : Nat → Nat → Nat) : List VisualCard :=
  add_cards rands [] deck_card_order

-- A swap of two list positions is a permutation.
theorem swap_at_perm {α : Type*} [DecidableEq α] (l : List α) (i j : Nat) :
    List.Perm (swap_at l i j) l := by
  rw [swap_at]
  cases hi : l[i]? with
  | none => simp
  | some a =>
    cases hj : l[j]? with
    | none => simp
    | some b =>
      simp only
      obtain ⟨hi', hia⟩ := List.getElem?_eq_some.mp hi
      obtain ⟨hj', hjb⟩ := List.getElem?_eq_some.mp hj
      have hj2 : j < (l.set i b).length := by simpa using hj'
      have hval : getElem (l.set i b) j hj2 = b := by
        rw [List.getElem_set]
        split
        · rfl
        · exact hjb
      rw [List.perm_iff_count]
      intro x
      rw [List.count_set a x (l.set i b) j hj2, List.count_set b x l i hi', hval]
      have hmem : a ∈ l := hia ▸ List.getElem_mem hi'
      by_cases hax : a = x
      · have hpos : 0 < List.count x l := List.count_pos_iff.mpr (hax ▸ hmem)
        by_cases hbx : b = x <;> simp [hia, hax, hbx] <;> omega
      · by_cases hbx : b = x <;> simp [hia, hax, hbx]

-- Every pass of the Fisher-Yates loop is a permutation.
theorem shuffleGo_perm {α : Type*} [DecidableEq α] (rand : Nat → Nat) :
    ∀ (i : Nat) (l : List α), List.Perm (shuffleGo rand i l) l := by
  intro i
  induction i with
  | zero => intro l; simp [shuffleGo]
  | succ n ih =>
    intro l
    rw [shuffleGo]
    exact (ih _).trans (swap_at_perm _ _ _)

-- `shuffle` permutes its input.
theorem shuffle_perm {α : Type*} [DecidableEq α] (rand : Nat → Nat) (l : List α) :
    List.Perm (shuffle rand l) l :=
  shuffleGo_perm rand _ l

-- `add_card` yields a permutation of the old cards plus the new one.
theorem add_card_perm (rand : Nat → Nat) (cards : List VisualCard) (c : VisualCard) :
    List.Perm (add_card rand cards c) (cards ++ [c]) :=
  shuffle_perm rand (cards ++ [c])

theorem add_cards_go_perm (rands : Nat → Nat → Nat) :
    ∀ (cs : List VisualCard) (k : Nat) (cards : List VisualCard),
      List.Perm (add_cards_go rands k cards cs) (cards ++ cs) := by
  intro cs
  induction cs with
  | nil => intro k cards; simp [add_cards_go]
  | cons c cs ih =>
    intro k cards
    rw [add_cards_go]
    refine (ih _ _).trans ?_
    have h1 : List.Perm (add_card (rands k) cards c ++ cs) ((cards ++ [c]) ++ cs) :=
      List.Perm.append_right cs (add_card_perm _ _ _)
    refine h1.trans ?_
    simp

-- `add_cards` yields a permutation of the old cards plus the discarded ones.
theorem add_cards_perm (rands : Nat → Nat → Nat) (cards discarded : List VisualCard) :
    List.Perm (add_cards rands cards discarded) (cards ++ discarded) :=
  add_cards_go_perm rands discarded 0 cards

-- Sample cards for concrete scenarios.
def card_a : VisualCard := { color := Color.red, number := 1 }

def card_b : VisualCard := { color := Color.green, number := 2 }

def card_c : VisualCard := { color := Color.blue, number := 3 }

def card_d : VisualCard := { color := Color.yellow, number := 4 }

def card_e : VisualCard := { color := Color.black, number := 5 }

def card_f : VisualCard := { color := Color.red, number := 6 }

-- Full characterisation of `draw_cards`: it never returns an error, pops from
-- the end of the card list, and stops early exactly when the deck runs out.
theorem draw_cards_characterisation :
    ∀ (count : Nat) (cards : List VisualCard),
      ∃ drawn final,
        draw_cards cards count = Except.ok (drawn, final) ∧
        cards = final ++ drawn.reverse ∧
        drawn.length = min count cards.length ∧
        (drawn.length < count → final = []) := by
  intro count
  induction count with
  | zero =>
    intro cards
    exact ⟨[], cards, rfl, by simp, by simp, by omega⟩
  | succ n ih =>
    intro cards
    by_cases hc : cards = []
    · subst hc
      exact ⟨[], [], by simp [draw_cards, is_empty], by simp, by simp, fun _ => rfl⟩
    · obtain ⟨drawn, final, h1, h2, h3, h4⟩ := ih cards.dropLast
      have hlast : cards.getLast? = some (cards.getLast hc) :=
        List.getLast?_eq_getLast cards hc
      have hemp : is_empty cards = false := by
        simp [is_empty, hc]
      refine ⟨cards.getLast hc :: drawn, final, ?_, ?_, ?_, ?_⟩
      · rw [draw_cards, hemp]
        simp only [Bool.false_eq_true, if_false, draw_card, hlast, h1]
      · rw [List.reverse_cons, ← List.append_assoc, ← h2,
          List.dropLast_append_getLast hc]
      · have hlen : cards.length ≠ 0 := fun h => hc (List.length_eq_zero.mp h)
        have hdl : cards.dropLast.length = cards.length - 1 := List.length_dropLast cards
        rw [hdl] at h3
        simp only [List.length_cons, h3]
        omega
      · intro hlt
        apply h4
        simp only [List.length_cons] at hlt
        omega

/-- Claim C2: for every deck and every requested count, `draw_cards` never
fails with an error: it always returns `Except.ok`, the cards it returns are
removed from the top (the end) of the card pile — the old pile is exactly the
remaining pile followed by the drawn cards in reverse draw order — and it
returns fewer than the requested count only if the pile is exhausted
(`is_empty` holds of what remains; `VisualDeck` keeps no separate discard pile,
so this is all the deck has). -/
theorem c2_draw_cards_never_fails (cards : List VisualCard) (count : Nat) :
    ∃ drawn final,
      draw_cards cards count = Except.ok (drawn, final) ∧
      cards = final ++ drawn.reverse ∧
      drawn.length = min count cards.length ∧
      (drawn.length < count → is_empty final = true) := by
  obtain ⟨drawn, final, h1, h2, h3, h4⟩ := draw_cards_characterisation count cards
  exact ⟨drawn, final, h1, h2, h3, fun h => by simp [is_empty, h4 h]⟩

/-- Concrete instance of claim C2 at a one-card deck and a request of 3. -/
theorem c2_draw_cards_never_fails_witness :
    ∃ drawn final,
      draw_cards [card_a] 3 = Except.ok (drawn, final) ∧
      [card_a] = final ++ drawn.reverse ∧
      drawn.length = min 3 [card_a].length ∧
      (drawn.length < 3 → is_empty final = true) :=
  c2_draw_cards_never_fails [card_a] 3

/-- Claim C1 counterexample: `VisualDeck` holds a single card pile and no
discard pile, and `draw_cards` never recycles anything: with the draw pile at
exactly 1 card and 5 discard-area cards held separately, `draw_cards 3`
returns 1 card, not `1 + 5 = 6`. -/
theorem c1_draw_exhaustion_counterexample :
    ¬ (∀ (deck disc : List VisualCard), deck.length = 1 → disc.length = 5 →
        ∃ drawn final,
          draw_cards deck 3 = Except.ok (drawn, final) ∧
          drawn.length = 6 ∧ final = []) := by
  intro h
  obtain ⟨drawn, final, h1, h2, h3⟩ :=
    h [card_a] [card_b, card_c, card_d, card_e, card_f] rfl rfl
  have he : draw_cards [card_a] 3 = Except.ok ([card_a], []) := rfl
  rw [he] at h1
  have hdr : drawn = [card_a] := by
    injection h1 with hp
    exact (congrArg Prod.fst hp).symm
  rw [hdr] at h2
  simp at h2

/-- Claim C1 (amended): `VisualDeck` keeps one card pile and no discard pile,
so nothing is recycled: drawing 3 from a deck holding exactly 1 card returns
exactly that 1 card and leaves the deck empty; 5 separately held discard-area
cards are untouched (they are not even an input of `draw_cards`). -/
theorem c1_draw_exhaustion_amended (deck disc : List VisualCard)
    (hdeck : deck.length = 1) (_hdisc : disc.length = 5) :
    ∃ c, deck = [c] ∧ draw_cards deck 3 = Except.ok ([c], []) := by
  match deck, hdeck with
  | [c], _ => exact ⟨c, rfl, rfl⟩

/-- Concrete instance of the amended claim C1. -/
theorem c1_draw_exhaustion_amended_witness :
    ∃ c, [card_a] = [c] ∧ draw_cards [card_a] 3 = Except.ok ([c], []) :=
  c1_draw_exhaustion_amended [card_a] [card_b, card_c, card_d, card_e, card_f]
    rfl rfl

/-- Claim C10: `draw_card` on an empty deck raises
`ValueError("Cannot draw from an empty deck")` instead of degrading
gracefully; on a non-empty deck it removes and returns the last card of the
sequence. -/
theorem c10_draw_card_spec :
    draw_card [] = Except.error ("Cannot draw from an empty deck") ∧
    ∀ (cards : List VisualCard) (h : cards ≠ []),
      draw_card cards = Except.ok (cards.getLast h, cards.dropLast) := by
  refine ⟨rfl, ?_⟩
  intro cards h
  rw [draw_card, List.getLast?_eq_getLast cards h]

/-- Concrete instance of claim C10 on a two-card deck. -/
theorem c10_draw_card_spec_witness :
    draw_card [card_a, card_b] = Except.ok (card_b, [card_a]) :=
  (c10_draw_card_spec.2 [card_a, card_b] (by simp)).trans rfl

/-- Claim C3 counterexample: `add_card` calls `self.shuffle()` after every
append, so discarding does shuffle: with all random draws 0, discarding
`card_c` onto the pile `[card_a, card_b]` yields `[card_b, card_c, card_a]` —
not the plain append — and the pre-existing cards `card_a, card_b` no longer
appear in their old relative order. -/
theorem c3_discard_counterexample :
    add_cards (fun _ _ => 0) [card_a, card_b] [card_c] = [card_b, card_c, card_a] ∧
    add_cards (fun _ _ => 0) [card_a, card_b] [card_c] ≠ [card_a, card_b] ++ [card_c] ∧
    ¬ List.Sublist [card_a, card_b]
        (add_cards (fun _ _ => 0) [card_a, card_b] [card_c]) :=
  ⟨by rfl, by decide, by decide⟩

/-- Claim C3 (amended): discarding appends each card to the deck's single card
list but re-shuffles after every append: for every possible sequence of random
draws the final pile is a permutation of the old pile plus the discarded
cards, while the relative order of the pre-existing cards is not preserved in
general. -/
theorem c3_discard_amended (rands : Nat → Nat → Nat)
    (cards discarded : List VisualCard) :
    List.Perm (add_cards rands cards discarded) (cards ++ discarded) :=
  add_cards_perm rands cards discarded

/-- Claim C5: immediately after `_initialize_deck` — whatever random draws the
interleaved shuffles made — the deck holds exactly `NUM_DUPLICATES = 2` copies
of every color-number pair, 90 cards in total. -/
theorem c5_init_deck_spec (rands : Nat → Nat → Nat) :
    (init_deck rands).length = 90 ∧
    ∀ c : Color, ∀ n ∈ Number.get_all_numbers,
      (init_deck rands).count { color := c, number := n } = NUM_DUPLICATES := by
  have hperm : List.Perm (init_deck rands) deck_card_order :=
    (add_cards_perm rands [] deck_card_order).trans (by simp)
  constructor
  · rw [hperm.length_eq]
    decide
  · intro c
    simp only [hperm.count_eq]
    cases c <;> decide

/-- Concrete instance of claim C5: two copies of red 1 after initialization
with all random draws 0. -/
theorem c5_init_deck_spec_witness :
    (init_deck (fun _ _ => 0)).count { color := Color.red, number := 1 } =
      NUM_DUPLICATES :=
  (c5_init_deck_spec (fun _ _ => 0)).2 Color.red 1 (by decide)

-- Action name constants of the class `Action` in
-- `notty/src/visual/action_board.py`.
def Action.DRAW_MULTIPLE : String := "draw_multiple"

def Action.STEAL : String := "steal"

def Action.DRAW_DISCARD_DRAW : String := "draw_discard_draw"

def Action.DRAW_DISCARD_DISCARD : String := "draw_discard_discard"

def Action.DISCARD_GROUP : String := "discard_group"

def Action.NEXT_TURN : String := "next_turn"

def Action.PLAY_FOR_ME : String := "play_for_me"

/-- Modelled from the spec: the class `VisualPlayer` of
`notty/src/visual/player.py` is not among the available sources; the spec's
Player carries a name and a human/computer flag (its hand and sprite are not
read by any claim). -/
structure VisualPlayer where
  name : String
  is_human : Bool
  deriving DecidableEq

/-- `ActionButton` of `notty/src/visual/action_board.py` (the render-only
fields `text` and `hovered` are kept for fidelity). -/
structure ActionButton where
  x : Int
  y : Int
  width : Int
  height : Int
  text : String
  action_name : String
  enabled : Bool
  hovered : Bool
  deriving DecidableEq

/-- `ActionButton.is_clicked`: `False` when the button is disabled, otherwise
whether the mouse coordinates fall inside the button rectangle. -/
def ActionButton.is_clicked (b : ActionButton) (mouse_x mouse_y : Int) : Bool :=
  if !b.enabled then false
  else
    decide (b.x ≤ mouse_x ∧ mouse_x ≤ b.x + b.width ∧
      b.y ≤ mouse_y ∧ mouse_y ≤ b.y + b.height)

/-- `ActionBoard.handle_click`: iterates over the buttons and calls
`game.do_action(button.action_name)` for every enabled clicked button.  The
first component collects the requested `do_action` calls in order (the only
game-state effect); the second is the function's return value, which is
always `None` — the body has no `return` statement. -/
def handle_click (buttons : List ActionButton) (mouse_x mouse_y : Int) :
    List String × Option String :=
  (buttons.filterMap fun b =>
      if b.enabled && b.is_clicked mouse_x mouse_y then some b.action_name
      else none,
    none)

/-- `ActionBoard.update_button_states`: disables every button when the current
player is not human; on a human turn enables the PLAY_FOR_ME button
unconditionally and every other button iff `game.action_is_possible` grants
its action.  The game is abstracted by the two values the method reads:
the current player and the `action_is_possible` predicate. -/
def update_button_states (current_player : VisualPlayer)
    (action_is_possible : String → Bool) (buttons : List ActionButton) :
    List ActionButton :=
  buttons.map fun b =>
    if !current_player.is_human then { b with enabled := false }
    else if b.action_name == Action.PLAY_FOR_ME then { b with enabled := true }
    else { b with enabled := action_is_possible b.action_name }

-- A disabled sample button whose rectangle contains the point (5, 5).
def disabled_button : ActionButton :=
  { x := 0, y := 0, width := 10, height := 10, text := "Next Turn",
    action_name := Action.NEXT_TURN, enabled := false, hovered := false }

/-- Claim C4 counterexample: a click on a disabled action button is rejected
but silently: `handle_click` reports nothing to its caller (its return value
is `None` in every case), so no distinct error kind is reported.  Refuted at
a disabled button whose rectangle contains the click point. -/
theorem c4_illegal_click_counterexample :
    ¬ (∀ (buttons : List ActionButton) (mouse_x mouse_y : Int),
        (∃ b ∈ buttons, b.enabled = false ∧
          b.x ≤ mouse_x ∧ mouse_x ≤ b.x + b.width ∧
          b.y ≤ mouse_y ∧ mouse_y ≤ b.y + b.height) →
        (handle_click buttons mouse_x mouse_y).2 ≠ none) := by
  intro h
  exact h [disabled_button] 5 5 ⟨disabled_button, by simp, by decide⟩ rfl

/-- Claim C4 (amended): a click on a disabled action button leaves the game
state unchanged — `do_action` is requested only for enabled buttons whose
`is_clicked` holds, hence never for a disabled button — but the rejection is
silent: `handle_click` returns `None` in every case instead of reporting a
distinct error kind. -/
theorem c4_illegal_click_amended (buttons : List ActionButton)
    (mouse_x mouse_y : Int) :
    (∀ a ∈ (handle_click buttons mouse_x mouse_y).1,
      ∃ b ∈ buttons, b.enabled = true ∧ b.is_clicked mouse_x mouse_y = true ∧
        b.action_name = a) ∧
    ((∀ b ∈ buttons, b.enabled = true → b.is_clicked mouse_x mouse_y = false) →
      (handle_click buttons mouse_x mouse_y).1 = []) ∧
    (handle_click buttons mouse_x mouse_y).2 = none := by
  refine ⟨?_, ?_, rfl⟩
  · intro a ha
    simp only [handle_click, List.mem_filterMap] at ha
    obtain ⟨b, hb, hf⟩ := ha
    by_cases hcond : (b.enabled && b.is_clicked mouse_x mouse_y) = true
    · rw [if_pos hcond] at hf
      obtain ⟨hen, hcl⟩ := Bool.and_eq_true_iff.mp hcond
      exact ⟨b, hb, hen, hcl, Option.some.inj hf⟩
    · rw [if_neg hcond] at hf
      exact absurd hf (by simp)
  · intro hnone
    simp only [handle_click]
    rw [List.filterMap_eq_nil_iff]
    intro b hb
    by_cases hen : b.enabled = true
    · simp [hen, hnone b hb hen]
    · simp only [Bool.not_eq_true] at hen
      simp [hen]

/-- Concrete instance of the amended claim C4: the click at (5, 5) on the
disabled button requests no `do_action` and is answered by `None`. -/
theorem c4_illegal_click_amended_witness :
    (∀ a ∈ (handle_click [disabled_button] 5 5).1,
      ∃ b ∈ [disabled_button], b.enabled = true ∧ b.is_clicked 5 5 = true ∧
        b.action_name = a) ∧
    ((∀ b ∈ [disabled_button], b.enabled = true → b.is_clicked 5 5 = false) →
      (handle_click [disabled_button] 5 5).1 = []) ∧
    (handle_click [disabled_button] 5 5).2 = none :=
  c4_illegal_click_amended [disabled_button] 5 5

-- Sample data for concrete instances of claim C6.
def play_for_me_button : ActionButton :=
  { x := 0, y := 30, width := 10, height := 10, text := "Play for Me",
    action_name := Action.PLAY_FOR_ME, enabled := false, hovered := false }

def computer_player : VisualPlayer := { name := "robot", is_human := false }

def human_player : VisualPlayer := { name := "ava", is_human := true }

/-- Claim C6: after `update_button_states`, when the current player is not
human every action button is disabled, and when the current player is human
the PLAY_FOR_ME button is enabled unconditionally — a PLAY_FOR_ME button ends
up enabled exactly when it is the human actor's turn. -/
theorem c6_update_button_states_spec (current_player : VisualPlayer)
    (action_is_possible : String → Bool) (buttons : List ActionButton) :
    (current_player.is_human = false →
      ∀ b ∈ update_button_states current_player action_is_possible buttons,
        b.enabled = false) ∧
    (∀ b ∈ update_button_states current_player action_is_possible buttons,
      b.action_name = Action.PLAY_FOR_ME →
        (b.enabled = true ↔ current_player.is_human = true)) := by
  constructor
  · intro hh b hb
    simp only [update_button_states, List.mem_map] at hb
    obtain ⟨a, ha, rfl⟩ := hb
    simp [hh]
  · intro b hb hname
    simp only [update_button_states, List.mem_map] at hb
    obtain ⟨a, ha, rfl⟩ := hb
    cases hhum : current_player.is_human
    · simp [hhum]
    · simp only [hhum, Bool.not_true, Bool.false_eq_true, if_false] at hname ⊢
      by_cases hpm : (a.action_name == Action.PLAY_FOR_ME) = true
      · simp [hpm]
      · rw [if_neg hpm] at hname
        simp only [beq_iff_eq] at hpm
        exact absurd hname hpm

/-- Concrete instance of claim C6 at a human player whose
`action_is_possible` grants nothing: the PLAY_FOR_ME button is enabled. -/
theorem c6_update_button_states_spec_witness :
    (human_player.is_human = false →
      ∀ b ∈ update_button_states human_player (fun _ => false)
          [play_for_me_button, disabled_button],
        b.enabled = false) ∧
    (∀ b ∈ update_button_states human_player (fun _ => false)
        [play_for_me_button, disabled_button],
      b.action_name = Action.PLAY_FOR_ME →
        (b.enabled = true ↔ human_player.is_human = true)) :=
  c6_update_button_states_spec human_player (fun _ => false)
    [play_for_me_button, disabled_button]

/-- `SelectableButton` of `notty/src/visual/base_selector.py`.  The pixel
rectangle and the image are render-only (a spec non-goal) and never read by
the selection logic, so they are not modelled; which button a click hits is
carried by the click event instead. -/
structure SelectableButton (α : Type) where
  item : α
  enabled : Bool
  selectable : Bool
  hovered : Bool
  selected : Bool
  deriving DecidableEq

/-- `SelectableButton.toggle_selection`: only `selectable` buttons react; a
selected button is always deselected; an unselected one becomes selected only
when `current_selected_count < max_selections`. -/
def SelectableButton.toggle_selection {α : Type} (b : SelectableButton α)
    (current_selected_count max_selections : Nat) : SelectableButton α :=
  if b.selectable then
    if b.selected then { b with selected := false }
    else if current_selected_count < max_selections then
      { b with selected := true }
    else b
  else b

/-- `BaseSelector._get_selected_items`: the items of the selected buttons in
button order. -/
def selected_items {α : Type} (buttons : List (SelectableButton α)) : List α :=
  (buttons.filter fun b => b.selected).map fun b => b.item

/-- The count `len(self._get_selected_items())` that the selector dialogs pass
to `toggle_selection`. -/
def selected_count {α : Type} (buttons : List (SelectableButton α)) : Nat :=
  (selected_items buttons).length

/-- `BaseSelector._is_valid_selection`: false on an empty selection, otherwise
defer to `validation_func` when one was supplied, else check the count bound. -/
def is_valid_selection {α : Type} (validation_func : Option (List α → Bool))
    (max_selections : Nat) (buttons : List (SelectableButton α)) : Bool :=
  let selected := selected_items buttons
  if selected.isEmpty then false
  else
    match validation_func with
    | some f => f selected
    | none => decide (selected.length ≤ max_selections)

/-- `SubmitButton` of `notty/src/visual/cards_selector.py` (constructed
disabled). -/
structure SubmitButton where
  x : Int
  y : Int
  width : Int
  height : Int
  hovered : Bool
  enabled : Bool
  deriving DecidableEq

/-- `SubmitButton.is_clicked`: `False` when the button is disabled, otherwise
the rectangle test. -/
def SubmitButton.is_clicked (s : SubmitButton) (mouse_x mouse_y : Int) : Bool :=
  if !s.enabled then false
  else
    decide (s.x ≤ mouse_x ∧ mouse_x ≤ s.x + s.width ∧
      s.y ≤ mouse_y ∧ mouse_y ≤ s.y + s.height)

/-- `CardsSelector._update_submit_button_state`: the submit button is enabled
iff the current selection is valid; `CardsSelector.__init__` always supplies a
`validation_func` and passes `max_selections = len(available_cards)`. -/
def update_submit_button_state {α : Type} (validation_func : List α → Bool)
    (max_selections : Nat) (buttons : List (SelectableButton α))
    (submit : SubmitButton) : SubmitButton :=
  { submit with
    enabled := is_valid_selection (some validation_func) max_selections buttons }

/-- Claim C7: in the cards selector the submit button is enabled — and
`SubmitButton.is_clicked`, the only path on which `CardsSelector.show`
returns a group, can only hold — exactly when the selected subset of hand
cards is non-empty and the externally supplied validation function accepts
it. -/
theorem c7_submit_validity {α : Type} (validation_func : List α → Bool)
    (max_selections : Nat) (buttons : List (SelectableButton α))
    (submit : SubmitButton) :
    ((update_submit_button_state validation_func max_selections buttons
        submit).enabled = true ↔
      selected_items buttons ≠ [] ∧
        validation_func (selected_items buttons) = true) ∧
    ∀ mouse_x mouse_y : Int,
      (update_submit_button_state validation_func max_selections buttons
          submit).is_clicked mouse_x mouse_y = true →
        selected_items buttons ≠ [] ∧
          validation_func (selected_items buttons) = true := by
  have hiff :
      (update_submit_button_state validation_func max_selections buttons
          submit).enabled = true ↔
        selected_items buttons ≠ [] ∧
          validation_func (selected_items buttons) = true := by
    simp only [update_submit_button_state, is_valid_selection]
    by_cases h : (selected_items buttons).isEmpty
    · simp [h, List.isEmpty_iff.mp h]
    · simp [h, List.isEmpty_iff.not.mp h]
  refine ⟨hiff, ?_⟩
  intro mouse_x mouse_y hclick
  apply hiff.mp
  by_cases hen :
      (update_submit_button_state validation_func max_selections buttons
        submit).enabled = true
  · exact hen
  · rw [SubmitButton.is_clicked] at hclick
    simp [hen] at hclick

/-- Concrete instance of claim C7: one selected card accepted by the
validation function enables submit. -/
theorem c7_submit_validity_witness :
    ((update_submit_button_state (fun l => decide (l.length = 1)) 1
        [{ item := card_a, enabled := true, selectable := true,
           hovered := false, selected := true }]
        { x := 0, y := 0, width := 10, height := 10, hovered := false,
          enabled := false }).enabled = true ↔
      selected_items
          [{ item := card_a, enabled := true, selectable := true,
             hovered := false, selected := true }] ≠ [] ∧
        decide ((selected_items
            [{ item := card_a, enabled := true, selectable := true,
               hovered := false, selected := true }]).length = 1) = true) ∧
    ∀ mouse_x mouse_y : Int,
      (update_submit_button_state (fun l => decide (l.length = 1)) 1
          [{ item := card_a, enabled := true, selectable := true,
             hovered := false, selected := true }]
          { x := 0, y := 0, width := 10, height := 10, hovered := false,
            enabled := false }).is_clicked mouse_x mouse_y = true →
        selected_items
            [{ item := card_a, enabled := true, selectable := true,
               hovered := false, selected := true }] ≠ [] ∧
          decide ((selected_items
              [{ item := card_a, enabled := true, selectable := true,
                 hovered := false, selected := true }]).length = 1) = true :=
  c7_submit_validity (fun l => decide (l.length = 1)) 1
    [{ item := card_a, enabled := true, selectable := true,
       hovered := false, selected := true }]
    { x := 0, y := 0, width := 10, height := 10, hovered := false,
      enabled := false }

/-- One `MOUSEBUTTONDOWN` hitting button `i` in the multi-select loops of
`BaseSelector.show`, `CardsSelector.show` and `PlayerNameSelector.show`: an
enabled hit button is toggled with the count of currently selected items
(which button a click hits is pixel geometry, so the hit index is the event
datum here; `is_clicked` is false for a disabled button, and an index outside
the list corresponds to a click hitting no button). -/
def click_button {α : Type} (max_selections : Nat)
    (buttons : List (SelectableButton α)) (i : Nat) :
    List (SelectableButton α) :=
  match buttons[i]? with
  | none => buttons
  | some b =>
    if b.enabled then
      buttons.set i
        (b.toggle_selection (selected_count buttons) max_selections)
    else buttons

/-- A run of a selector dialog: the toggles performed by a sequence of clicks,
each hitting the button at the given index. -/
def run_clicks {α : Type} (max_selections : Nat)
    (buttons : List (SelectableButton α)) (clicks : List Nat) :
    List (SelectableButton α) :=
  clicks.foldl (click_button max_selections) buttons

-- The selected count is a `countP`.
theorem selected_count_eq_countP {α : Type}
    (buttons : List (SelectableButton α)) :
    selected_count buttons = buttons.countP fun b => b.selected := by
  simp [selected_count, selected_items, List.countP_eq_length_filter]

-- Replacing one list entry shifts `countP` by the difference of the two
-- entries, stated additively to avoid truncated subtraction.
theorem countP_set_of_getElem {α : Type} (p : α → Bool) (l : List α) (i : Nat)
    (b x : α) (hb : l[i]? = some b) :
    (l.set i x).countP p + (if p b then 1 else 0) =
      l.countP p + (if p x then 1 else 0) := by
  obtain ⟨hi, hbi⟩ := List.getElem?_eq_some.mp hb
  rw [List.countP_set _ _ _ _ hi, hbi]
  have hle : (if p b = true then 1 else 0) ≤ l.countP p := by
    by_cases hpb : p b = true
    · have : 0 < l.countP p :=
        List.countP_pos_iff.mpr ⟨b, hbi ▸ List.getElem_mem hi, hpb⟩
      simpa [hpb] using this
    · simp [hpb]
  omega

-- One click never pushes the selected count above `max_selections`.
theorem click_button_count_le {α : Type} (max_selections : Nat)
    (buttons : List (SelectableButton α)) (i : Nat)
    (h : selected_count buttons ≤ max_selections) :
    selected_count (click_button max_selections buttons i) ≤ max_selections := by
  rw [click_button]
  cases hb : buttons[i]? with
  | none => exact h
  | some b =>
    simp only
    by_cases hen : b.enabled = true
    · rw [if_pos hen]
      have hset := countP_set_of_getElem (fun b => b.selected) buttons i b
        (b.toggle_selection (selected_count buttons) max_selections) hb
      rw [selected_count_eq_countP] at h ⊢
      rw [SelectableButton.toggle_selection] at hset ⊢
      by_cases hsel : b.selectable = true
      · rw [if_pos hsel] at hset ⊢
        by_cases hsd : b.selected = true
        · rw [if_pos hsd] at hset ⊢
          simp [hsd] at hset
          omega
        · rw [if_neg hsd] at hset ⊢
          by_cases hcnt : selected_count buttons < max_selections
          · rw [if_pos hcnt] at hset ⊢
            rw [selected_count_eq_countP] at hcnt
            simp [hsd] at hset
            omega
          · rw [if_neg hcnt] at hset ⊢
            simp only [hsd] at hset
            omega
      · rw [if_neg hsel] at hset ⊢
        omega
    · rw [if_neg hen]
      exact h

-- One click preserves any button property that `toggle_selection` preserves.
theorem click_button_pres {α : Type} (P : SelectableButton α → Prop)
    (hP : ∀ (b : SelectableButton α) (c m : Nat),
      P b → P (b.toggle_selection c m))
    (max_selections : Nat) (buttons : List (SelectableButton α)) (i : Nat)
    (h : ∀ b ∈ buttons, P b) :
    ∀ b ∈ click_button max_selections buttons i, P b := by
  intro b hmem
  rw [click_button] at hmem
  cases hb : buttons[i]? with
  | none => rw [hb] at hmem; exact h b hmem
  | some a =>
    rw [hb] at hmem
    simp only at hmem
    by_cases hen : a.enabled = true
    · rw [if_pos hen] at hmem
      rcases List.mem_or_eq_of_mem_set hmem with hmem' | rfl
      · exact h b hmem'
      · obtain ⟨hi, hbi⟩ := List.getElem?_eq_some.mp hb
        exact hP a _ _ (h a (hbi ▸ List.getElem_mem hi))
    · rw [if_neg hen] at hmem
      exact h b hmem

-- A whole run keeps the selected count within `max_selections`.
theorem run_clicks_count_le {α : Type} (max_selections : Nat)
    (clicks : List Nat) :
    ∀ buttons : List (SelectableButton α),
      selected_count buttons ≤ max_selections →
      selected_count (run_clicks max_selections buttons clicks) ≤
        max_selections := by
  induction clicks with
  | nil => intro buttons h; exact h
  | cons i rest ih =>
    intro buttons h
    exact ih _ (click_button_count_le max_selections buttons i h)

-- A whole run preserves any toggle-stable button property.
theorem run_clicks_pres {α : Type} (P : SelectableButton α → Prop)
    (hP : ∀ (b : SelectableButton α) (c m : Nat),
      P b → P (b.toggle_selection c m))
    (max_selections : Nat) (clicks : List Nat) :
    ∀ buttons : List (SelectableButton α),
      (∀ b ∈ buttons, P b) →
      ∀ b ∈ run_clicks max_selections buttons clicks, P b := by
  induction clicks with
  | nil => intro buttons h; exact h
  | cons i rest ih =>
    intro buttons h
    exact ih _ (click_button_pres P hP max_selections buttons i h)

-- Only selectable buttons can ever be selected.
theorem toggle_stable_selected_selectable {α : Type}
    (b : SelectableButton α) (c m : Nat)
    (h : b.selected = true → b.selectable = true) :
    (b.toggle_selection c m).selected = true →
      (b.toggle_selection c m).selectable = true := by
  rw [SelectableButton.toggle_selection]
  by_cases hsel : b.selectable = true
  · rw [if_pos hsel]
    by_cases hsd : b.selected = true
    · rw [if_pos hsd]; intro; exact hsel
    · rw [if_neg hsd]
      by_cases hcnt : c < m
      · rw [if_pos hcnt]; intro; exact hsel
      · rw [if_neg hcnt]; exact h
  · rw [if_neg hsel]; exact h

/-- Claim C9: for every selector run — any initial button list with nothing
selected (every selector constructs its buttons unselected) and any sequence
of clicks — the number of selected buttons never exceeds `max_selections`,
and `toggle_selection` on an already-selected button always deselects it
regardless of the current selection count: in particular every selected
button of a reachable state is deselected by the click that toggles it
next. -/
theorem c9_toggle_selection_invariant {α : Type} (max_selections : Nat)
    (buttons : List (SelectableButton α))
    (hinit : ∀ b ∈ buttons, b.selected = false) (clicks : List Nat) :
    selected_count (run_clicks max_selections buttons clicks) ≤
      max_selections ∧
    ∀ b ∈ run_clicks max_selections buttons clicks, b.selected = true →
      ∀ current_count : Nat,
        (b.toggle_selection current_count max_selections).selected = false := by
  constructor
  · apply run_clicks_count_le
    have : selected_count buttons = 0 := by
      rw [selected_count_eq_countP]
      rw [List.countP_eq_zero]
      intro b hb
      simp [hinit b hb]
    omega
  · intro b hmem hbsel current_count
    have hstable : ∀ b ∈ run_clicks max_selections buttons clicks,
        b.selected = true → b.selectable = true := by
      apply run_clicks_pres (fun b => b.selected = true → b.selectable = true)
        toggle_stable_selected_selectable
      intro b hb hsel
      exact absurd hsel (by simp [hinit b hb])
    have hselectable := hstable b hmem hbsel
    rw [SelectableButton.toggle_selection, if_pos hselectable, if_pos hbsel]

/-- Concrete instance of claim C9: two clicks on the same button under
`max_selections = 1` select and deselect it. -/
theorem c9_toggle_selection_invariant_witness :
    selected_count (run_clicks 1
      [{ item := card_a, enabled := true, selectable := true,
         hovered := false, selected := false }] [0, 0]) ≤ 1 ∧
    ∀ b ∈ run_clicks 1
        [{ item := card_a, enabled := true, selectable := true,
           hovered := false, selected := false }] [0, 0],
      b.selected = true →
      ∀ current_count : Nat,
        (b.toggle_selection current_count 1).selected = false :=
  c9_toggle_selection_invariant 1
    [{ item := card_a, enabled := true, selectable := true,
       hovered := false, selected := false }]
    (by simp) [0, 0]

/-- `PlayerNameSelector._setup_buttons`: one enabled, unselected button per
available name, in order; `selectable` is `needs_submit`, that is whether
`max_selections > 1` (layout and the loaded player images are not
modelled). -/
def player_name_buttons (available_names : List String)
    (max_selections : Nat) : List (SelectableButton String) :=
  available_names.map fun n =>
    { item := n, enabled := true, selectable := decide (1 < max_selections),
      hovered := false, selected := false }

/-- `get_players` of `notty/src/player_selection.py`: the human player first
(`is_human = True`), then one `VisualPlayer` with `is_human = False` per
selected opponent name. -/
def get_players (selected_player : String) (opponent_names : List String) :
    List VisualPlayer :=
  { name := selected_player, is_human := true } ::
    opponent_names.map fun n => { name := n, is_human := false }

-- Every selected item is the item of some button.
theorem mem_of_mem_selected_items {α : Type}
    (buttons : List (SelectableButton α)) (x : α)
    (hx : x ∈ selected_items buttons) :
    ∃ b ∈ buttons, b.item = x := by
  simp only [selected_items, List.mem_map, List.mem_filter] at hx
  obtain ⟨b, ⟨hb, _⟩, rfl⟩ := hx
  exact ⟨b, hb, rfl⟩

-- `toggle_selection` never changes which item a button carries.
theorem toggle_selection_item {α : Type} (b : SelectableButton α) (c m : Nat) :
    (b.toggle_selection c m).item = b.item := by
  rw [SelectableButton.toggle_selection]
  by_cases h1 : b.selectable = true
  · rw [if_pos h1]
    by_cases h2 : b.selected = true
    · rw [if_pos h2]
    · rw [if_neg h2]
      by_cases h3 : c < m
      · rw [if_pos h3]
      · rw [if_neg h3]
  · rw [if_neg h1]

/-- Claim C8: every player list produced by player setup — the chosen human
name plus opponent names obtained from a run of the opponent selector, which
offers the candidate names with the human's name filtered out, caps the
selection at `max_selections = 2` and returns only once at least
`min_selections = 1` names are selected — has the human player placed first,
contains exactly one player with `is_human = true`, and has between one and
two computer players, each of whose names differs from the human player's
name. -/
theorem c8_get_players_spec (all_names : List String)
    (selected_player : String) (clicks : List Nat)
    (opponent_names : List String)
    (hops : opponent_names =
      selected_items (run_clicks 2
        (player_name_buttons
          (all_names.filter fun n => n != selected_player) 2) clicks))
    (hmin : 1 ≤ opponent_names.length) :
    (get_players selected_player opponent_names).head? =
      some { name := selected_player, is_human := true } ∧
    ((get_players selected_player opponent_names).filter
      fun p => p.is_human).length = 1 ∧
    1 ≤ ((get_players selected_player opponent_names).filter
      fun p => !p.is_human).length ∧
    ((get_players selected_player opponent_names).filter
      fun p => !p.is_human).length ≤ 2 ∧
    ∀ p ∈ get_players selected_player opponent_names, p.is_human = false →
      p.name ≠ selected_player := by
  have hkeep : ((opponent_names.map fun n =>
      ({ name := n, is_human := false } : VisualPlayer)).filter
        fun p => !p.is_human) =
      opponent_names.map fun n => { name := n, is_human := false } := by
    rw [List.filter_eq_self]
    intro p hp
    simp only [List.mem_map] at hp
    obtain ⟨n, _, rfl⟩ := hp
    rfl
  have hdrop : ((opponent_names.map fun n =>
      ({ name := n, is_human := false } : VisualPlayer)).filter
        fun p => p.is_human) = [] := by
    rw [List.filter_eq_nil_iff]
    intro p hp
    simp only [List.mem_map] at hp
    obtain ⟨n, _, rfl⟩ := hp
    simp
  have hcomp : ((get_players selected_player opponent_names).filter
      fun p => !p.is_human) =
      opponent_names.map fun n => { name := n, is_human := false } := by
    rw [get_players, List.filter_cons]
    have hh : (!({ name := selected_player, is_human := true } :
        VisualPlayer).is_human) = false := rfl
    rw [hh]
    simp only [Bool.false_eq_true, if_false]
    exact hkeep
  have hinit0 : selected_count (player_name_buttons
      (all_names.filter fun n => n != selected_player) 2) = 0 := by
    rw [selected_count_eq_countP, List.countP_eq_zero]
    intro b hb
    simp only [player_name_buttons, List.mem_map] at hb
    obtain ⟨n, _, rfl⟩ := hb
    simp
  have hlen2 : opponent_names.length ≤ 2 := by
    rw [hops]
    exact run_clicks_count_le 2 clicks _ (by omega)
  refine ⟨rfl, ?_, ?_, ?_, ?_⟩
  · rw [get_players, List.filter_cons]
    have hh : ({ name := selected_player, is_human := true } :
        VisualPlayer).is_human = true := rfl
    rw [hh]
    simp only [if_true]
    rw [hdrop]
    rfl
  · rw [hcomp, List.length_map]
    exact hmin
  · rw [hcomp, List.length_map]
    exact hlen2
  · intro p hp hhum
    simp only [get_players, List.mem_cons, List.mem_map] at hp
    rcases hp with rfl | ⟨n, hn, rfl⟩
    · exact absurd hhum (by simp)
    · simp only
      rw [hops] at hn
      obtain ⟨b, hb, hbn⟩ := mem_of_mem_selected_items _ _ hn
      have hitem : ∀ c ∈ run_clicks 2
          (player_name_buttons
            (all_names.filter fun n => n != selected_player) 2) clicks,
          c.item ∈ all_names.filter fun n => n != selected_player := by
        apply run_clicks_pres
          (fun c => c.item ∈ all_names.filter fun n => n != selected_player)
        · intro c cc m hc
          rw [toggle_selection_item]
          exact hc
        · intro c hc
          simp only [player_name_buttons, List.mem_map] at hc
          obtain ⟨m, hm, rfl⟩ := hc
          exact hm
      have := hitem b hb
      rw [hbn] at this
      have := (List.mem_filter.mp this).2
      exact fun heq => by simp [heq] at this

/-- Concrete instance of claim C8: human "ava" against the single selected
opponent "bob". -/
theorem c8_get_players_spec_witness :
    (get_players "ava" ["bob"]).head? =
      some { name := "ava", is_human := true } ∧
    ((get_players "ava" ["bob"]).filter fun p => p.is_human).length = 1 ∧
    1 ≤ ((get_players "ava" ["bob"]).filter fun p => !p.is_human).length ∧
    ((get_players "ava" ["bob"]).filter fun p => !p.is_human).length ≤ 2 ∧
    ∀ p ∈ get_players "ava" ["bob"], p.is_human = false → p.name ≠ "ava" :=
  c8_get_players_spec ["ava", "bob", "cara"] "ava" [0] ["bob"] (by rfl)
    (by decide)

end Notty
